import Mathlib

/-!
Verification of the order & position lifecycle engine of the
intraday-auto-trader repository (`main.py` together with
`dhan_api_helper.verify_order_status`).

Python dictionaries are embedded as association lists in insertion order;
`dict.get(k, d)` becomes an explicit lookup with default, numeric values
(Python floats) are modelled as rationals, and the broker / network calls
are supplied as explicit oracle arguments.  Each function below is a direct
translation of the named Python function.
-/

set_option maxHeartbeats 1000000

namespace IntradayBot

/-- Lookup of a key in a Python dict embedded as an association list
(first binding wins; a real dict has unique keys). -/
def lookupKey {α : Type} (k : String) : List (String × α) → Option α
  | [] => none
  | (k', v) :: rest => if k' = k then some v else lookupKey k rest

/-- Python dict assignment `d[k] = v`: replace the binding in place when the
key exists, otherwise append the new binding at the end (insertion order). -/
def dictInsert {α : Type} (k : String) (v : α) (d : List (String × α)) : List (String × α) :=
  if (lookupKey k d).isSome then
    d.map (fun kv => if kv.1 = k then (k, v) else kv)
  else d ++ [(k, v)]

/-- Python `d.pop(k, None)`: drop the binding of `k`. -/
def dictRemove {α : Type} (k : String) (d : List (String × α)) : List (String × α) :=
  d.filter (fun kv => kv.1 ≠ k)

/-- A record of `BOT_STATE['pending_orders']`, as written by
`check_and_register_pending_order` in `main.py`: timestamp, symbol, action
and an `order_id` that stays `None` until the broker call returns. -/
structure PendingRecord where
  timestamp : ℚ
  symbol : Option String
  action : Option String
  order_id : Option String
  deriving Repr, DecidableEq

/-- The `order_data` dict passed to the registration helpers; only the keys
`symbol` and `action` are read (via `.get`, so either may be absent). -/
structure OrderData where
  symbol : Option String
  action : Option String
  deriving Repr, DecidableEq

/-- The pending-order registry `BOT_STATE['pending_orders']`. -/
abbrev PendingOrders := List (String × PendingRecord)

/-- `check_and_register_pending_order` (`main.py`): under the state lock,
return `False` if the correlation id is already registered, otherwise insert
a record with `order_id = None` and return `True`.  The result is the pair
(returned boolean, updated registry). -/
def check_and_register_pending_order (pending : PendingOrders) (correlation_id : String)
    (order_data : OrderData) (now : ℚ) : Bool × PendingOrders :=
  if (lookupKey correlation_id pending).isSome then
    (false, pending)
  else
    (true, pending ++ [(correlation_id,
      { timestamp := now
        symbol := order_data.symbol
        action := order_data.action
        order_id := none })])

/-- `clear_pending_order` (`main.py`): remove the registry record. -/
def clear_pending_order (pending : PendingOrders) (correlation_id : String) : PendingOrders :=
  dictRemove correlation_id pending

/-- The post-placement bookkeeping in `place_buy_order` / `place_sell_order`:
`if correlation_id in BOT_STATE['pending_orders']: ...['order_id'] = orderId`. -/
def attach_order_id (pending : PendingOrders) (correlation_id : String) (oid : String) :
    PendingOrders :=
  if (lookupKey correlation_id pending).isSome then
    pending.map (fun kv =>
      if kv.1 = correlation_id then (kv.1, { kv.2 with order_id := some oid }) else kv)
  else pending

/-- A sequence of `check_and_register_pending_order` calls with one fixed
correlation id and no intervening clear; each call threads the registry to
the next and records its returned boolean. -/
def runCheckAndRegisterSeq (pending : PendingOrders) (correlation_id : String) :
    List (OrderData × ℚ) → List Bool × PendingOrders
  | [] => ([], pending)
  | (od, t) :: rest =>
    let r := check_and_register_pending_order pending correlation_id od t
    let rec' := runCheckAndRegisterSeq r.2 correlation_id rest
    (r.1 :: rec'.1, rec'.2)

/-- Helper: the record inserted for a fresh correlation id. -/
def freshRecord (od : OrderData) (t : ℚ) : PendingRecord :=
  { timestamp := t, symbol := od.symbol, action := od.action, order_id := none }

/-- The value a Python order-placement helper hands back on success: the
literal `True` in dry-run mode, or the broker order id string. -/
inductive OrderRef
  | dryRunRef
  | orderRef (oid : String)
  deriving Repr, DecidableEq

/-- Python truthiness of an order-placement result (`None` and the empty
string are falsy, `True` and a nonempty id are truthy). -/
def orderRefTruthy : Option OrderRef → Bool
  | none => false
  | some OrderRef.dryRunRef => true
  | some (OrderRef.orderRef s) => s ≠ ""

/-- Externally visible actions the gateway helpers perform, recorded in
order: registry operations and broker order submissions. -/
inductive GatewayAction
  | registryCheck (cid : String) (ok : Bool)
  | registryClear (cid : String)
  | registryAttach (cid : String)
  | brokerPlace (side : String) (symbol : String) (qty : ℤ)
  | verifyPoll (attempt : ℕ)
  | fetchPositions
  deriving Repr, DecidableEq

/-- Is an action a broker order submission? -/
def isBrokerPlace : GatewayAction → Bool
  | GatewayAction.brokerPlace _ _ _ => true
  | _ => false

/-- Number of broker order submissions in a trace. -/
def placementCount (trace : List GatewayAction) : ℕ :=
  (trace.filter isBrokerPlace).length

/-- `place_buy_order` (`main.py`): dry-run short-circuits to `True`
immediately; otherwise, when a correlation id is supplied (Python truthiness:
nonempty), the atomic duplicate check runs and a duplicate returns `None`
without any broker call; otherwise the order is submitted and the order id is
attached to the registry record.  `broker` is the outcome of
`place_order_api` (`Except.error` models the raised exception, after which
`None` is returned and the registry record is left for the caller to clear).
Returns (result, updated registry, action trace). -/
def place_buy_order (dry_run : Bool) (pending : PendingOrders) (correlation_id symbol : String)
    (qty : ℤ) (broker : Except Unit String) (now : ℚ) :
    Option OrderRef × PendingOrders × List GatewayAction :=
  if dry_run then (some OrderRef.dryRunRef, pending, [])
  else if correlation_id ≠ "" then
    let chk := check_and_register_pending_order pending correlation_id
      { symbol := some symbol, action := none } now
    if chk.1 = false then (none, chk.2, [GatewayAction.registryCheck correlation_id false])
    else
      match broker with
      | Except.ok oid =>
        (some (OrderRef.orderRef oid), attach_order_id chk.2 correlation_id oid,
         [GatewayAction.registryCheck correlation_id true,
          GatewayAction.brokerPlace "BUY" symbol qty,
          GatewayAction.registryAttach correlation_id])
      | Except.error _ =>
        (none, chk.2,
         [GatewayAction.registryCheck correlation_id true,
          GatewayAction.brokerPlace "BUY" symbol qty])
  else
    match broker with
    | Except.ok oid =>
      (some (OrderRef.orderRef oid), attach_order_id pending correlation_id oid,
       [GatewayAction.brokerPlace "BUY" symbol qty,
        GatewayAction.registryAttach correlation_id])
    | Except.error _ =>
      (none, pending, [GatewayAction.brokerPlace "BUY" symbol qty])

/-- `place_sell_order` (`main.py`): the atomic check-and-register always runs
first; a duplicate returns `None`; dry-run then clears the record and returns
`True`; otherwise the order is submitted, with the id attached on success and
the record cleared when the broker call raises. -/
def place_sell_order (dry_run : Bool) (pending : PendingOrders)
    (correlation_id symbol reason : String) (qty : ℤ) (broker : Except Unit String) (now : ℚ) :
    Option OrderRef × PendingOrders × List GatewayAction :=
  let chk := check_and_register_pending_order pending correlation_id
    { symbol := some symbol, action := some reason } now
  if chk.1 = false then (none, chk.2, [GatewayAction.registryCheck correlation_id false])
  else if dry_run then
    (some OrderRef.dryRunRef, clear_pending_order chk.2 correlation_id,
     [GatewayAction.registryCheck correlation_id true,
      GatewayAction.registryClear correlation_id])
  else
    match broker with
    | Except.ok oid =>
      (some (OrderRef.orderRef oid), attach_order_id chk.2 correlation_id oid,
       [GatewayAction.registryCheck correlation_id true,
        GatewayAction.brokerPlace "SELL" symbol qty,
        GatewayAction.registryAttach correlation_id])
    | Except.error _ =>
      (none, clear_pending_order chk.2 correlation_id,
       [GatewayAction.registryCheck correlation_id true,
        GatewayAction.brokerPlace "SELL" symbol qty,
        GatewayAction.registryClear correlation_id])

/-- ASCII upper-casing of one character, as Python `str.upper` does on the
order-id strings that occur here. -/
def pyUpperChar (c : Char) : Char :=
  if 'a' ≤ c ∧ c ≤ 'z' then Char.ofNat (c.toNat - 32) else c

/-- Python `s.upper()`. -/
def pyUpper (s : String) : String :=
  (s.data.map pyUpperChar).asString

/-- One call of `verify_order_status` (`dhan_api_helper.py`) on a given order
reference: falsy ids give `NO_ID`, the dry-run sentinel succeeds immediately,
and a real order id consults the broker oracle (indexed by the caller's
attempt number).  The oracle value is (is_success, status, average price). -/
def verifyAttempt (oracle : ℕ → Bool × String × ℚ) (ref : Option OrderRef) (attempt : ℕ) :
    Bool × String × ℚ :=
  match ref with
  | none => (false, "NO_ID", 0)
  | some OrderRef.dryRunRef => (true, "DRY_RUN", 0)
  | some (OrderRef.orderRef oid) =>
    if oid = "" then (false, "NO_ID", 0)
    else if pyUpper oid = "DRY_RUN" then (true, "DRY_RUN", 0)
    else oracle attempt

/-- The verification loop of `place_sell_order_with_retry`: attempts
`attempt, attempt+1, ...` while `fuel` lasts, returning the average price of
the first successful verification together with the polling trace. -/
def run_verification (oracle : ℕ → Bool × String × ℚ) (ref : Option OrderRef) :
    (fuel : ℕ) → (attempt : ℕ) → Option ℚ × List GatewayAction
  | 0, _ => (none, [])
  | fuel + 1, attempt =>
    let r := verifyAttempt oracle ref attempt
    if r.1 then (some r.2.2, [GatewayAction.verifyPoll attempt])
    else
      let rest := run_verification oracle ref fuel (attempt + 1)
      (rest.1, GatewayAction.verifyPoll attempt :: rest.2)

/-- One row of the broker's net-position response, with the fields the core
reads: `tradingsymbol`, `netqty`, `avgnetprice`, `symboltoken`. -/
structure BrokerPos where
  tradingsymbol : String
  netqty : ℤ
  avgnetprice : ℚ
  symboltoken : Option String
  deriving Repr, DecidableEq

/-- Python `s.replace("-EQ", "")` on the character list: scan left to right,
dropping each non-overlapping occurrence of `-EQ`. -/
def dropEQChars : List Char → List Char
  | [] => []
  | '-' :: 'E' :: 'Q' :: rest => dropEQChars rest
  | c :: rest => c :: dropEQChars rest

/-- Python `tradingsymbol.replace("-EQ", "")`. -/
def dropEQ (s : String) : String :=
  (dropEQChars s.data).asString

/-- `place_sell_order_with_retry` (`main.py`): place the exit order once via
`place_sell_order`; when the result is falsy report total failure; otherwise
retry only the verification up to `max_retries` times; when every attempt is
unsuccessful, fall back to `fetch_net_positions` (`live_positions`; `none`
models a fetch failure, and Python truthiness makes the empty list skip the
check) and treat the order as filled when the symbol shows net quantity 0,
with the price left at 0.0 for the caller to source from the LTP. -/
def place_sell_order_with_retry (dry_run : Bool) (pending : PendingOrders)
    (correlation_id symbol reason : String) (qty : ℤ) (broker : Except Unit String)
    (oracle : ℕ → Bool × String × ℚ) (live_positions : Option (List BrokerPos))
    (max_retries : ℕ) (now : ℚ) :
    (Option OrderRef × Bool × ℚ) × PendingOrders × List GatewayAction :=
  let ps := place_sell_order dry_run pending correlation_id symbol reason qty broker now
  if orderRefTruthy ps.1 = false then ((none, false, 0), ps.2.1, ps.2.2)
  else
    let v := run_verification oracle ps.1 max_retries 1
    match v.1 with
    | some avg => ((ps.1, true, avg), ps.2.1, ps.2.2 ++ v.2)
    | none =>
      let trace := ps.2.2 ++ v.2 ++ [GatewayAction.fetchPositions]
      match live_positions with
      | none => ((ps.1, false, 0), ps.2.1, trace)
      | some lp =>
        if lp.isEmpty then ((ps.1, false, 0), ps.2.1, trace)
        else if lp.any (fun p => dropEQ p.tradingsymbol == symbol && p.netqty == 0) then
          ((ps.1, true, 0), ps.2.1, trace)
        else ((ps.1, false, 0), ps.2.1, trace)

/-- A position dict in `BOT_STATE['positions']`.  The entry paths, the
orphan imports and the position manager write different key sets, so every
key that some path may leave absent is an `Option` (`none` = key absent),
and reads go through the explicit `.get` defaults of the source. -/
structure Position where
  symbol : Option String
  entry_price : ℚ
  qty : ℤ
  sl : ℚ
  target : Option ℚ
  status : String
  entry_time : Option String
  entry_time_ts : Option ℚ
  original_sl : Option ℚ
  highest_ltp : Option ℚ
  tsl_level : Option ℕ
  is_breakeven_active : Option Bool
  setup_grade : Option String
  is_orphaned : Option Bool
  order_id : Option OrderRef
  exit_in_progress : Option Bool
  exit_requested_ts : Option ℚ
  current_ltp : Option ℚ
  exit_price : Option ℚ
  exit_reason : Option String
  deriving Repr, DecidableEq

/-- The target check of `manage_positions`:
`target_price and current_ltp >= target_price` (Python truthiness: `None`
and `0.0` are falsy). -/
def targetCondition (target : Option ℚ) (current_ltp : ℚ) : Bool :=
  match target with
  | none => false
  | some t => decide (¬ t = 0) && decide (t ≤ current_ltp)

/-- The time-stagnation check of `manage_positions`: position age above 60
minutes with unrealized gain below 0.5 percent, guarded by the truthiness of
`entry_time_ts`. -/
def timeCondition (entry_time_ts : Option ℚ) (entry_price current_ltp now : ℚ) : Bool :=
  match entry_time_ts with
  | none => false
  | some ts =>
    decide (¬ ts = 0) && decide ((now - ts) / 60 > 60) &&
      decide ((current_ltp - entry_price) / entry_price < 0.005)

/-- Step 5 of `manage_positions` (`main.py`): the continuous trailing-stop
ratchet.  `original_sl` is materialised if absent; when the original risk is
positive the peak R-multiple decides the next level (`maxRR≥1` → breakeven /
level 1, `maxRR≥2` → lock +1R / level 2, `maxRR≥3` → lock +2R / level 3),
and the proposed stop is applied only when strictly above the current one. -/
def apply_trailing (pos : Position) (current_ltp : ℚ) : Position :=
  let original_sl := pos.original_sl.getD pos.sl
  let pos1 := { pos with original_sl := some original_sl }
  let risk_per_share := pos1.entry_price - original_sl
  if risk_per_share > 0 then
    let highest_ltp := pos1.highest_ltp.getD current_ltp
    let max_rr := (highest_ltp - pos1.entry_price) / risk_per_share
    let level_achieved := pos1.tsl_level.getD 0
    let proposed :=
      if max_rr ≥ 1 ∧ level_achieved < 1 then (pos1.entry_price * 1.001, 1)
      else if max_rr ≥ 2 ∧ level_achieved < 2 then (pos1.entry_price + 1 * risk_per_share, 2)
      else if max_rr ≥ 3 ∧ level_achieved < 3 then (pos1.entry_price + 2 * risk_per_share, 3)
      else (pos1.sl, level_achieved)
    if proposed.1 > pos1.sl then
      { pos1 with sl := proposed.1, tsl_level := some proposed.2 }
    else pos1
  else pos1

/-- The watermark update of `manage_positions`: store `current_ltp` and
raise `highest_ltp` when the LTP strictly exceeds `pos.get('highest_ltp', 0)`. -/
def updateWatermark (pos : Position) (current_ltp : ℚ) : Position :=
  let pos1 := { pos with current_ltp := some current_ltp }
  if current_ltp > pos1.highest_ltp.getD 0
    then { pos1 with highest_ltp := some current_ltp } else pos1

/-- The in-lock bookkeeping when an exit fires:
`exit_in_progress = True`, `exit_requested_ts = time.time()`. -/
def markExit (pos : Position) (now : ℚ) : Position :=
  { pos with exit_in_progress := some true, exit_requested_ts := some now }

/-- The decision phase of `manage_positions` (`main.py`) for one symbol with
a known LTP: skip non-OPEN or exit-in-progress positions, update
`current_ltp` and the `highest_ltp` watermark, then run the exit checks in
source order — hard stop, target, technical breakdown (precomputed outside
the lock and passed as a flag), time stagnation — and the trailing ratchet
when no exit fired.  The locals `entry_price`, `sl_price` and `target_price`
are read from the position before the watermark update, exactly as in the
source (the update touches neither).  Returns the updated position and the
`exit_action = (reason_code, qty)` if any. -/
def manage_decision (pos : Position) (current_ltp : ℚ) (tech_breakdown : Bool) (now : ℚ) :
    Position × Option (String × ℤ) :=
  if pos.status ≠ "OPEN" then (pos, none)
  else if pos.exit_in_progress.getD false then (pos, none)
  else
    let entry_price := pos.entry_price
    let sl_price := pos.sl
    let target_price := pos.target
    let pos2 := updateWatermark pos current_ltp
    if current_ltp ≤ sl_price then
      (markExit pos2 now, some ("STOP_LOSS", pos2.qty))
    else if targetCondition target_price current_ltp then
      (markExit pos2 now, some ("TARGET_HIT", pos2.qty))
    else if tech_breakdown then
      (markExit pos2 now, some ("TECH_EXIT", pos2.qty))
    else if timeCondition pos2.entry_time_ts entry_price current_ltp now then
      (markExit pos2 now, some ("TIME_EXIT", pos2.qty))
    else
      (apply_trailing pos2 current_ltp, none)

/-- A sequence of position-manager evaluations of one position; each step
supplies that cycle's LTP, technical-breakdown flag and wall-clock time. -/
def manage_run (pos : Position) (steps : List (ℚ × Bool × ℚ)) : Position :=
  steps.foldl (fun p s => (manage_decision p s.1 s.2.1 s.2.2).1) pos

/-- The (stop, level) transition the trailing ratchet performs at fixed
entry price, original stop and peak price; used to reason about
`apply_trailing`. -/
def tStep (entry original_sl highest : ℚ) (s : ℚ × ℕ) : ℚ × ℕ :=
  let risk := entry - original_sl
  if risk > 0 then
    let max_rr := (highest - entry) / risk
    let proposed :=
      if max_rr ≥ 1 ∧ s.2 < 1 then (entry * 1.001, 1)
      else if max_rr ≥ 2 ∧ s.2 < 2 then (entry + 1 * risk, 2)
      else if max_rr ≥ 3 ∧ s.2 < 3 then (entry + 2 * risk, 3)
      else (s.1, s.2)
    if proposed.1 > s.1 then proposed else s
  else s

/-- Is `pat` an initial segment of the list? -/
def listIsInit {α : Type} [DecidableEq α] : List α → List α → Bool
  | _, [] => true
  | [], _ :: _ => false
  | a :: as, b :: bs => if a = b then listIsInit as bs else false

/-- Does the list contain `pat` as a contiguous sublist? -/
def listHasSub {α : Type} [DecidableEq α] (pat : List α) : List α → Bool
  | [] => pat.isEmpty
  | a :: as => listIsInit (a :: as) pat || listHasSub pat as

/-- Python `pat in s` on strings. -/
def strContains (s pat : String) : Bool :=
  listHasSub pat.data s.data

/-- The TIMEOUT last-resort recovery in `run_bot_loop` (`main.py`): when
verification was unsuccessful with a TIMEOUT status, scan the broker's live
positions for an exact `tradingsymbol` match whose absolute net quantity
equals the ordered quantity; on a hit the order is assumed successful with
the broker's average price (falling back to the signal price when that is
0). -/
def timeout_recovery (v0 : Bool × String × ℚ) (live_positions : Option (List BrokerPos))
    (symbol : String) (quantity : ℤ) (price : ℚ) : Bool × String × ℚ :=
  if v0.1 = false ∧ strContains v0.2.1 "TIMEOUT" = true then
    match live_positions with
    | none => v0
    | some lp =>
      if lp.isEmpty then v0
      else
        match lp.find? (fun bp =>
            bp.tradingsymbol == symbol && ((bp.netqty.natAbs : ℤ) == quantity)) with
        | some bp =>
          (true, "TRADED (RECOVERED)", if bp.avgnetprice = 0 then price else bp.avgnetprice)
        | none => v0
  else v0

/-- The order placement, verification and position creation of one signal in
`run_bot_loop` (`main.py`): place the buy order (idempotency inside
`place_buy_order`), bail out on a falsy result, verify once (`verify` is the
oracle outcome of `verify_order_status` for a real order id), attempt the
TIMEOUT position-scan recovery, and only on a successful final status write
the OPEN position into the aggregate state.  Returns (position written if
any, final is_success, updated registry). -/
def run_bot_entry_step (dry_run : Bool) (pending : PendingOrders)
    (correlation_id symbol : String) (quantity : ℤ) (price sl_price target_price : ℚ)
    (broker : Except Unit String) (verify : Bool × String × ℚ)
    (live_positions : Option (List BrokerPos)) (now qnow : ℚ) (nowStr : String) :
    Option Position × Bool × PendingOrders :=
  let pb := place_buy_order dry_run pending correlation_id symbol quantity broker now
  if orderRefTruthy pb.1 = false then (none, false, pb.2.1)
  else
    let v0 := verifyAttempt (fun _ => verify) pb.1 0
    let vr := timeout_recovery v0 live_positions symbol quantity price
    if vr.1 then
      let entry_price := if vr.2.2 > 0 then vr.2.2 else price
      (some { symbol := some symbol, entry_price := entry_price, qty := quantity,
              status := "OPEN", entry_time := some nowStr, entry_time_ts := some qnow,
              sl := sl_price, target := some target_price, original_sl := some sl_price,
              highest_ltp := some entry_price, is_breakeven_active := some false,
              order_id := pb.1, tsl_level := none, setup_grade := none, is_orphaned := none,
              exit_in_progress := none, exit_requested_ts := none, current_ltp := none,
              exit_price := none, exit_reason := none },
       true, pb.2.1)
    else (none, false, pb.2.1)

/-- The execution tail of one sniper signal in `run_sniper_execution_loop`
(`main.py`), after sizing produced `calc_qty`: the loop first runs the atomic
check-and-register itself, then calls `place_buy_order` with the same
correlation id; the position is written when the result is truthy or dry-run
is on, and the pending record is cleared in both branches.  Returns
(position written if any, updated registry, action trace). -/
def sniper_entry_step (dry_run : Bool) (pending : PendingOrders)
    (correlation_id symbol : String) (calc_qty : ℤ)
    (live_ltp buffered_sl target_pct : ℚ) (broker : Except Unit String)
    (now qnow : ℚ) (nowStr : String) :
    Option Position × PendingOrders × List GatewayAction :=
  if calc_qty > 0 then
    let chk := check_and_register_pending_order pending correlation_id
      { symbol := some symbol, action := none } now
    if chk.1 = false then (none, chk.2, [GatewayAction.registryCheck correlation_id false])
    else
      let pb := place_buy_order dry_run chk.2 correlation_id symbol calc_qty broker now
      if orderRefTruthy pb.1 || dry_run then
        let target_price := live_ltp * (1 + target_pct)
        (some { symbol := some symbol, entry_price := live_ltp, qty := calc_qty,
                sl := buffered_sl, target := some target_price,
                original_sl := some buffered_sl, highest_ltp := some live_ltp,
                status := "OPEN", entry_time := some nowStr, entry_time_ts := some qnow,
                is_breakeven_active := some false, setup_grade := some "SNIPER",
                order_id := if dry_run then some (OrderRef.orderRef "DRY_RUN") else pb.1,
                exit_in_progress := some false, tsl_level := none, is_orphaned := none,
                exit_requested_ts := none, current_ltp := none, exit_price := none,
                exit_reason := none },
         clear_pending_order pb.2.1 correlation_id,
         GatewayAction.registryCheck correlation_id true :: pb.2.2
           ++ [GatewayAction.registryClear correlation_id])
      else
        (none, clear_pending_order pb.2.1 correlation_id,
         GatewayAction.registryCheck correlation_id true :: pb.2.2
           ++ [GatewayAction.registryClear correlation_id])
  else (none, pending, [])

/-- One value of the `broker_open` map both reconciliation passes build:
`{qty (absolute), avg_price, token}`. -/
structure BrokerOpenData where
  qty : ℤ
  avg_price : ℚ
  token : Option String
  deriving Repr, DecidableEq

/-- `BOT_STATE['positions']` as an association list in insertion order. -/
abbrev Positions := List (String × Position)

/-- The `broker_open` map both reconciliation passes build from the broker's
net-position rows: keep rows with nonzero `netqty`, key them by the
tradingsymbol with `-EQ` stripped, store the absolute quantity, average
price and token. -/
def build_broker_open (live : List BrokerPos) : List (String × BrokerOpenData) :=
  live.foldl (fun acc pos =>
    if pos.netqty ≠ 0 then
      dictInsert (dropEQ pos.tradingsymbol)
        { qty := (pos.netqty.natAbs : ℤ), avg_price := pos.avgnetprice,
          token := pos.symboltoken } acc
    else acc) []

/-- Ghost handling in `reconcile_positions_quick`: mark the position CLOSED
with exit reason `RECONCILIATION`. -/
def close_ghost_quick (p : Position) : Position :=
  { p with status := "CLOSED", exit_reason := some "RECONCILIATION" }

/-- Ghost handling in `reconcile_state`: mark the position CLOSED with exit
reason `RECONCILIATION_MISSING` and exit price 0 (unknown). -/
def close_ghost_state (p : Position) : Position :=
  { p with
    status := "CLOSED",
    exit_reason := some "RECONCILIATION_MISSING",
    exit_price := some 0 }

/-- The per-entry ghost check of `reconcile_positions_quick`: close an OPEN
entry whose symbol is absent from `broker_open`. -/
def ghost_update_quick (broker_open : List (String × BrokerOpenData))
    (symbol : String) (p : Position) : Position :=
  if p.status = "OPEN" ∧ lookupKey symbol broker_open = none
    then close_ghost_quick p else p

/-- The per-entry ghost check of `reconcile_state`. -/
def ghost_update_state (broker_open : List (String × BrokerOpenData))
    (symbol : String) (p : Position) : Position :=
  if p.status = "OPEN" ∧ lookupKey symbol broker_open = none
    then close_ghost_state p else p

/-- The orphan test both passes run:
`symbol not in positions or positions[symbol]['status'] != 'OPEN'`. -/
def orphanCondition (ps : Positions) (symbol : String) : Bool :=
  match lookupKey symbol ps with
  | none => true
  | some p => decide (p.status ≠ "OPEN")

/-- The orphan record `reconcile_positions_quick` imports, with the
emergency stop (0.8 percent) and target (2 percent) around the broker's
average price. -/
def orphan_position_quick (symbol : String) (d : BrokerOpenData) (now : ℚ) : Position :=
  { symbol := some symbol, entry_price := d.avg_price, qty := d.qty,
    sl := d.avg_price * (1 - 0.008), target := some (d.avg_price * (1 + 0.02)),
    original_sl := some (d.avg_price * (1 - 0.008)), highest_ltp := some d.avg_price,
    status := "OPEN", entry_time := some "RECONCILED", entry_time_ts := some now,
    is_breakeven_active := some false, is_orphaned := some true,
    exit_in_progress := some false, tsl_level := none, setup_grade := none,
    order_id := none, exit_requested_ts := none, current_ltp := none,
    exit_price := none, exit_reason := none }

/-- The orphan record `reconcile_state` imports, using the configured
`stop_loss_pct` / `target_pct` (defaults 0.01 / 0.02). -/
def orphan_position_state (d : BrokerOpenData) (sl_pct tp_pct : ℚ) : Position :=
  { symbol := none, entry_price := d.avg_price, qty := d.qty,
    sl := d.avg_price * (1 - sl_pct), target := some (d.avg_price * (1 + tp_pct)),
    status := "OPEN", entry_time := some "RECONCILED", setup_grade := some "ORPHAN",
    is_orphaned := some true, entry_time_ts := none, original_sl := none,
    highest_ltp := none, tsl_level := none, is_breakeven_active := none,
    order_id := none, exit_in_progress := none, exit_requested_ts := none,
    current_ltp := none, exit_price := none, exit_reason := none }

/-- `reconcile_positions_quick` (`main.py`): with a successful position
fetch, build `broker_open`, close the ghosts (local OPEN entries absent from
the broker), then import the orphans (broker symbols not locally OPEN) with
the emergency stop.  A failed fetch (`none`) leaves the state untouched. -/
def reconcile_positions_quick (live : Option (List BrokerPos)) (positions : Positions)
    (now : ℚ) : Positions :=
  match live with
  | none => positions
  | some lp =>
    let broker_open := build_broker_open lp
    let positions1 := positions.map (fun sp =>
      (sp.1, ghost_update_quick broker_open sp.1 sp.2))
    broker_open.foldl (fun ps sd =>
      if orphanCondition ps sd.1
        then dictInsert sd.1 (orphan_position_quick sd.1 sd.2 now) ps else ps) positions1

/-- `reconcile_state` (`main.py`): the startup pass; orphans are imported
first (with the configured default risk) and the ghosts are closed
afterwards.  Returns (success, updated positions); a failed fetch returns
`false` with the state untouched. -/
def reconcile_state (live : Option (List BrokerPos)) (positions : Positions)
    (sl_pct tp_pct : ℚ) : Bool × Positions :=
  match live with
  | none => (false, positions)
  | some lp =>
    let broker_open := build_broker_open lp
    let positions1 := broker_open.foldl (fun ps sd =>
      if orphanCondition ps sd.1
        then dictInsert sd.1 (orphan_position_state sd.2 sl_pct tp_pct) ps else ps) positions
    (true, positions1.map (fun sp => (sp.1, ghost_update_state broker_open sp.1 sp.2)))

/-- Python `int(x)` on a rational: truncation toward zero. -/
def truncInt (q : ℚ) : ℤ :=
  if 0 ≤ q then ⌊q⌋ else -⌊-q⌋

/-- `floor_to_lot_size` (`main.py`): plain-equity lot size is 1, so `int(qty)`
is the identity on an integer quantity. -/
def floor_to_lot_size (qty : ℤ) (symbol : String) : ℤ := qty

/-- `get_leverage` (`main.py`): the configured `leverage_equity`
(`none` = unset), defaulting to 1 when falsy or non-positive. -/
def get_leverage (leverage_raw : Option ℚ) : ℚ :=
  match leverage_raw with
  | some l => if l ≠ 0 ∧ l > 0 then l else 1
  | none => 1

/-- `calculate_position_size` (`main.py`): reject a wrong-direction stop and
a stop tighter than `min_sl_pct`; size by risk, cap by buying power with
`max_position_pct` clamped to 50, floor to the lot size, and return 0 when
the final quantity is not positive. -/
def calculate_position_size (entry_price sl_price balance risk_pct max_position_pct
    min_sl_pct : ℚ) (leverage_raw : Option ℚ) (symbol : String) : ℤ :=
  let sl_distance := entry_price - sl_price
  if sl_distance ≤ 0 then 0
  else
    let sl_distance_pct := (sl_distance / entry_price) * 100
    if sl_distance_pct < min_sl_pct then 0
    else
      let risk_amount := balance * (risk_pct / 100)
      let qty := truncInt (risk_amount / sl_distance)
      let safe_max_pos_pct := min max_position_pct 50
      let leverage := get_leverage leverage_raw
      let max_amount := (balance * leverage) * (safe_max_pos_pct / 100)
      let max_qty := truncInt (max_amount / entry_price)
      let qty2 := min qty max_qty
      let qty3 := floor_to_lot_size qty2 symbol
      if qty3 ≤ 0 then 0 else qty3

/-- `SizePosition` exactly as the claim words it (for comparison with the
source): 0 when `slPrice ≥ entryPrice` or the stop-distance percentage is
below `minSlPct`, otherwise
`min(floor(riskAmount/stopDistance), floor(balance*leverage*maxPositionPct/100/entryPrice))`
with identity lot flooring, 0 when not positive — with no clamp on
`maxPositionPct`. -/
def sizePositionClaim (entryPrice slPrice balance riskPct maxPositionPct minSlPct
    leverage : ℚ) : ℤ :=
  if slPrice ≥ entryPrice then 0
  else if ((entryPrice - slPrice) / entryPrice) * 100 < minSlPct then 0
  else
    let riskAmount := balance * (riskPct / 100)
    let q := min (truncInt (riskAmount / (entryPrice - slPrice)))
      (truncInt ((balance * leverage) * (maxPositionPct / 100) / entryPrice))
    if q ≤ 0 then 0 else q

/-- The claim's formula amended as the source forces: `maxPositionPct`
clamped to 50 before the buying-power cap. -/
def sizePositionAmended (entryPrice slPrice balance riskPct maxPositionPct minSlPct
    leverage : ℚ) : ℤ :=
  if slPrice ≥ entryPrice then 0
  else if ((entryPrice - slPrice) / entryPrice) * 100 < minSlPct then 0
  else
    let riskAmount := balance * (riskPct / 100)
    let q := min (truncInt (riskAmount / (entryPrice - slPrice)))
      (truncInt ((balance * leverage) * (min maxPositionPct 50 / 100) / entryPrice))
    if q ≤ 0 then 0 else q

/-- Concrete broker snapshot for the reconciliation witness: SBIN open with
net quantity 50 at 500. -/
def demoBroker : List BrokerPos :=
  [{ tradingsymbol := "SBIN-EQ", netqty := 50, avgnetprice := 500,
     symboltoken := some "3045" }]

/-- Concrete locally-OPEN position (RELIANCE) that the demo broker snapshot
does not hold. -/
def demoOpenPos : Position :=
  { symbol := some "RELIANCE", entry_price := 2800, qty := 5, sl := 2770,
    target := some 2860, status := "OPEN", entry_time := some "09:30:00",
    entry_time_ts := some 900, original_sl := some 2770, highest_ltp := some 2810,
    tsl_level := some 0, is_breakeven_active := some false, setup_grade := some "A",
    is_orphaned := none, order_id := some (OrderRef.orderRef "OIDR"),
    exit_in_progress := some false, exit_requested_ts := none, current_ltp := some 2810,
    exit_price := none, exit_reason := none }

/-- Concrete local position map for the reconciliation witness. -/
def demoPositions : Positions := [("RELIANCE", demoOpenPos)]

/-- Concrete open position for the monotonicity evaluations: entry 100,
SL 98, watermark 100, target 120, no trail level yet. -/
def slDemoPos : Position :=
  { symbol := some "TCS", entry_price := 100, qty := 25, sl := 98,
    target := some 120, status := "OPEN", entry_time := some "09:45:00",
    entry_time_ts := some 1000, original_sl := some 98, highest_ltp := some 100,
    tsl_level := none, is_breakeven_active := some false, setup_grade := some "A",
    is_orphaned := none, order_id := some (OrderRef.orderRef "OID7"),
    exit_in_progress := some false, exit_requested_ts := none, current_ltp := some 100,
    exit_price := none, exit_reason := none }

/-- Concrete open position in which the hard stop and the target condition
hold simultaneously: SL already raised to 101 and target 100, evaluated at
LTP 100.05. -/
def exitDemoPos : Position :=
  { symbol := some "INFY", entry_price := 100, qty := 10, sl := 101,
    target := some 100, status := "OPEN", entry_time := some "10:00:00",
    entry_time_ts := some 1000, original_sl := some 98, highest_ltp := some 104,
    tsl_level := some 2, is_breakeven_active := some true, setup_grade := some "A",
    is_orphaned := none, order_id := some (OrderRef.orderRef "OID8"),
    exit_in_progress := some false, exit_requested_ts := none, current_ltp := some 104,
    exit_price := none, exit_reason := none }

/-- Concrete position for the trailing-ratchet evaluations: entry 100,
original stop 98 (risk 2 per share), peak 106 (so maxRR = 3), trail level
still 0. -/
def trailingDemoPos : Position :=
  { symbol := some "RELIANCE", entry_price := 100, qty := 10, sl := 98,
    target := some 110, status := "OPEN", entry_time := some "10:15:00",
    entry_time_ts := some 1000, original_sl := some 98, highest_ltp := some 106,
    tsl_level := some 0, is_breakeven_active := some false, setup_grade := some "SNIPER",
    is_orphaned := none, order_id := some (OrderRef.orderRef "OID1"),
    exit_in_progress := some false, exit_requested_ts := none, current_ltp := some 106,
    exit_price := none, exit_reason := none }

end IntradayBot

namespace IntradayBot

theorem lookupKey_append {α : Type} (k : String) (d e : List (String × α)) :
    lookupKey k (d ++ e) = ((lookupKey k d).rec (lookupKey k e) (fun v => some v)) := by
  induction d with
  | nil => simp [lookupKey]
  | cons kv rest ih =>
    by_cases h : kv.1 = k
    · simp [lookupKey, h]
    · simp [lookupKey, h, ih]

theorem checkAndRegister_of_present (pending : PendingOrders) (cid : String)
    (od : OrderData) (t : ℚ) (h : (lookupKey cid pending).isSome) :
    check_and_register_pending_order pending cid od t = (false, pending) := by
  simp [check_and_register_pending_order, h]

theorem checkAndRegister_of_fresh (pending : PendingOrders) (cid : String)
    (od : OrderData) (t : ℚ) (h : lookupKey cid pending = none) :
    check_and_register_pending_order pending cid od t
      = (true, pending ++ [(cid, freshRecord od t)]) := by
  simp [check_and_register_pending_order, h, freshRecord]

theorem lookupKey_after_fresh_insert (pending : PendingOrders) (cid : String)
    (r : PendingRecord) (h : lookupKey cid pending = none) :
    lookupKey cid (pending ++ [(cid, r)]) = some r := by
  rw [lookupKey_append, h]
  simp [lookupKey]

theorem runSeq_all_false_of_present (pending : PendingOrders) (cid : String)
    (calls : List (OrderData × ℚ)) (h : (lookupKey cid pending).isSome) :
    runCheckAndRegisterSeq pending cid calls
      = (List.replicate calls.length false, pending) := by
  induction calls with
  | nil => simp [runCheckAndRegisterSeq]
  | cons c rest ih =>
    simp only [runCheckAndRegisterSeq, checkAndRegister_of_present pending cid c.1 c.2 h, ih,
      List.length_cons, List.replicate_succ]

/-- **C1.** `check_and_register_pending_order` is an atomic check-and-insert:
starting from a registry in which the correlation id is not yet present, the
first call returns `True` and inserts a record with `order_id = None`; every
later call in the sequence returns `False` and leaves the registry exactly as
the first call left it. -/
theorem checkAndRegister_atomic_first_call_wins (pending : PendingOrders)
    (cid : String) (od : OrderData) (t : ℚ) (rest : List (OrderData × ℚ))
    (hfresh : lookupKey cid pending = none) :
    (check_and_register_pending_order pending cid od t).1 = true ∧
    lookupKey cid (check_and_register_pending_order pending cid od t).2
      = some (freshRecord od t) ∧
    (freshRecord od t).order_id = none ∧
    runCheckAndRegisterSeq pending cid ((od, t) :: rest)
      = (true :: List.replicate rest.length false,
         (check_and_register_pending_order pending cid od t).2) := by
  have h1 := checkAndRegister_of_fresh pending cid od t hfresh
  have h2 := lookupKey_after_fresh_insert pending cid (freshRecord od t) hfresh
  refine ⟨by rw [h1], by rw [h1]; exact h2, rfl, ?_⟩
  have hpres : (lookupKey cid (pending ++ [(cid, freshRecord od t)])).isSome := by
    rw [h2]; rfl
  simp only [runCheckAndRegisterSeq, h1, runSeq_all_false_of_present _ _ rest hpres]

theorem run_verification_no_placement (oracle : ℕ → Bool × String × ℚ)
    (ref : Option OrderRef) (fuel attempt : ℕ) :
    placementCount (run_verification oracle ref fuel attempt).2 = 0 := by
  induction fuel generalizing attempt with
  | zero => rfl
  | succ n ih =>
    simp only [run_verification]
    by_cases h : (verifyAttempt oracle ref attempt).1
    · simp [h, placementCount, isBrokerPlace]
    · simp only [h, if_neg, Bool.false_eq_true, not_false_eq_true, if_false]
      simpa [placementCount, isBrokerPlace] using ih (attempt + 1)

theorem sell_places_at_most_once (dry_run : Bool) (pending : PendingOrders)
    (cid symbol reason : String) (qty : ℤ) (broker : Except Unit String) (now : ℚ) :
    placementCount (place_sell_order dry_run pending cid symbol reason qty broker now).2.2 ≤ 1 := by
  unfold place_sell_order
  by_cases h : (check_and_register_pending_order pending cid
      { symbol := some symbol, action := some reason } now).1 = false
  · simp [h, placementCount, isBrokerPlace, List.filter]
  · cases broker <;> by_cases hd : dry_run <;>
      simp [h, hd, placementCount, isBrokerPlace, List.filter]

theorem run_verification_none_of_all_fail (oracle : ℕ → Bool × String × ℚ)
    (s : String) (hs : s ≠ "") (hdr : pyUpper s ≠ "DRY_RUN")
    (hfail : ∀ i, (oracle i).1 = false) (fuel attempt : ℕ) :
    (run_verification oracle (some (OrderRef.orderRef s)) fuel attempt).1 = none := by
  induction fuel generalizing attempt with
  | zero => rfl
  | succ n ih =>
    simp only [run_verification, verifyAttempt, if_neg hs, if_neg hdr, hfail attempt,
      Bool.false_eq_true, if_false]
    exact ih (attempt + 1)

/-- **C2.** `place_sell_order_with_retry` submits the broker sell order at
most once on every run (only verification is retried), and when every
verification attempt is unsuccessful but the broker position list shows the
symbol with net quantity 0 it returns `(order_id, True, 0.0)`, the price left
to be sourced from the last traded price. -/
theorem sell_retry_single_placement_and_position_fallback :
    (∀ (dry_run : Bool) (pending : PendingOrders) (cid symbol reason : String) (qty : ℤ)
        (broker : Except Unit String) (oracle : ℕ → Bool × String × ℚ)
        (live : Option (List BrokerPos)) (mr : ℕ) (now : ℚ),
      placementCount (place_sell_order_with_retry dry_run pending cid symbol reason qty
        broker oracle live mr now).2.2 ≤ 1) ∧
    (∀ (pending : PendingOrders) (cid symbol reason s : String) (qty : ℤ)
        (oracle : ℕ → Bool × String × ℚ) (lp : List BrokerPos) (mr : ℕ) (now : ℚ),
      lookupKey cid pending = none → s ≠ "" → pyUpper s ≠ "DRY_RUN" →
      (∀ i, (oracle i).1 = false) → lp ≠ [] →
      (∃ p ∈ lp, dropEQ p.tradingsymbol = symbol ∧ p.netqty = 0) →
      (place_sell_order_with_retry false pending cid symbol reason qty (Except.ok s)
        oracle (some lp) mr now).1 = (some (OrderRef.orderRef s), true, 0)) := by
  constructor
  · intro dry_run pending cid symbol reason qty broker oracle live mr now
    unfold place_sell_order_with_retry
    have hsell := sell_places_at_most_once dry_run pending cid symbol reason qty broker now
    have hver := run_verification_no_placement oracle
      (place_sell_order dry_run pending cid symbol reason qty broker now).1 mr 1
    set ps := place_sell_order dry_run pending cid symbol reason qty broker now with hps
    by_cases ht : orderRefTruthy ps.1 = false
    · simpa [ht] using hsell
    · simp only [ht, if_neg, Bool.false_eq_true, not_false_eq_true, if_false]
      rcases hv1 : (run_verification oracle ps.1 mr 1).1 with _ | avg
      · cases live with
        | none =>
          simp only [hv1, placementCount, List.filter_append]
          simpa [placementCount, isBrokerPlace] using Nat.add_le_add hsell
            (Nat.le_of_eq (run_verification_no_placement oracle ps.1 mr 1))
        | some lp =>
          by_cases he : lp.isEmpty <;> by_cases ha : lp.any
              (fun p => dropEQ p.tradingsymbol == symbol && p.netqty == 0) <;>
            · simp only [hv1, he, ha, placementCount, List.filter_append]
              simpa [placementCount, isBrokerPlace] using Nat.add_le_add hsell
                (Nat.le_of_eq (run_verification_no_placement oracle ps.1 mr 1))
      · simp only [hv1, placementCount, List.filter_append]
        simpa [placementCount, isBrokerPlace] using Nat.add_le_add hsell
          (Nat.le_of_eq (run_verification_no_placement oracle ps.1 mr 1))
  · intro pending cid symbol reason s qty oracle lp mr now hfresh hs hdr hfail hne hfound
    have hchk := checkAndRegister_of_fresh pending cid
      { symbol := some symbol, action := some reason } now hfresh
    have hps : place_sell_order false pending cid symbol reason qty (Except.ok s) now
        = (some (OrderRef.orderRef s),
           attach_order_id (pending ++ [(cid, freshRecord
             { symbol := some symbol, action := some reason } now)]) cid s,
           [GatewayAction.registryCheck cid true, GatewayAction.brokerPlace "SELL" symbol qty,
            GatewayAction.registryAttach cid]) := by
      simp [place_sell_order, hchk]
    have hver := run_verification_none_of_all_fail oracle s hs hdr hfail mr 1
    have hany : lp.any (fun p => dropEQ p.tradingsymbol == symbol && p.netqty == 0) = true := by
      rcases hfound with ⟨p, hp, h1, h2⟩
      refine List.any_eq_true.mpr ⟨p, hp, ?_⟩
      simp [h1, h2]
    have hnotempty : lp.isEmpty = false := by
      cases lp with
      | nil => exact absurd rfl hne
      | cons a l => rfl
    simp only [place_sell_order_with_retry, hps, orderRefTruthy, ne_eq, hs,
      not_false_eq_true, Bool.true_eq_false, if_false, hver, hnotempty,
      hany, if_true, Bool.false_eq_true, ite_false, ite_true]
    simp

/-- Witness for C2: a concrete run in which both verification attempts fail
and the broker snapshot shows the symbol flat. -/
theorem sell_retry_single_placement_and_position_fallback_witness :
    (place_sell_order_with_retry false ([] : PendingOrders) "CID1" "SBIN" "STOP_LOSS" 5
        (Except.ok "ORD9") (fun _ => (false, "TIMEOUT_VERIFY", 0))
        (some [{ tradingsymbol := "SBIN-EQ", netqty := 0, avgnetprice := 500,
                 symboltoken := some "3045" }]) 3 10).1
      = (some (OrderRef.orderRef "ORD9"), true, 0) := by
  have h := sell_retry_single_placement_and_position_fallback.2 ([] : PendingOrders)
    "CID1" "SBIN" "STOP_LOSS" "ORD9" 5 (fun _ => (false, "TIMEOUT_VERIFY", 0))
    [{ tradingsymbol := "SBIN-EQ", netqty := 0, avgnetprice := 500, symboltoken := some "3045" }]
    3 10 rfl (by decide) (by decide) (fun _ => rfl) (by decide)
    ⟨_, List.mem_singleton.mpr rfl, by decide, rfl⟩
  exact h

theorem tStep_cases (e o h : ℚ) (s : ℚ × ℕ) :
    tStep e o h s = s ∨ (s.1 < (tStep e o h s).1 ∧ (tStep e o h s).2 = s.2 + 1) := by
  unfold tStep
  dsimp only
  split_ifs with hr h1 hg1 h2 hg2 h3 hg3 hgd
  · exact Or.inr ⟨hg1, by omega⟩
  · exact Or.inl rfl
  · refine Or.inr ⟨hg2, ?_⟩
    have hn1 : ¬ s.2 < 1 := fun hc => h1 ⟨by linarith [h2.1], hc⟩
    omega
  · exact Or.inl rfl
  · refine Or.inr ⟨hg3, ?_⟩
    have hn1 : ¬ s.2 < 1 := fun hc => h1 ⟨by linarith [h3.1], hc⟩
    have hn2 : ¬ s.2 < 2 := fun hc => h2 ⟨by linarith [h3.1], hc⟩
    omega
  · exact Or.inl rfl
  · exact absurd hgd (lt_irrefl s.1)
  · exact Or.inl rfl
  · exact Or.inl rfl

theorem tStep_high (e o h : ℚ) (s : ℚ × ℕ) (hs : 3 ≤ s.2) : tStep e o h s = s := by
  unfold tStep
  dsimp only
  split_ifs with hr h1 h2 h3 hgd <;> first | rfl | omega

theorem tStep_fourth (e o h : ℚ) (s : ℚ × ℕ) :
    tStep e o h (tStep e o h (tStep e o h (tStep e o h s)))
      = tStep e o h (tStep e o h (tStep e o h s)) := by
  by_cases c1 : tStep e o h s = s
  · simp only [c1]
  · obtain ⟨hlt1, hl1⟩ := (tStep_cases e o h s).resolve_left c1
    by_cases c2 : tStep e o h (tStep e o h s) = tStep e o h s
    · simp only [c2]
    · obtain ⟨hlt2, hl2⟩ := (tStep_cases e o h (tStep e o h s)).resolve_left c2
      by_cases c3 : tStep e o h (tStep e o h (tStep e o h s)) = tStep e o h (tStep e o h s)
      · simp only [c3]
      · obtain ⟨hlt3, hl3⟩ :=
          (tStep_cases e o h (tStep e o h (tStep e o h s))).resolve_left c3
        exact tStep_high e o h _ (by omega)

theorem apply_trailing_char (p : Position) (ltp : ℚ) :
    (tStep p.entry_price (p.original_sl.getD p.sl) (p.highest_ltp.getD ltp)
        (p.sl, p.tsl_level.getD 0) = (p.sl, p.tsl_level.getD 0) ∧
      apply_trailing p ltp = { p with original_sl := some (p.original_sl.getD p.sl) }) ∨
    (p.sl < (tStep p.entry_price (p.original_sl.getD p.sl) (p.highest_ltp.getD ltp)
        (p.sl, p.tsl_level.getD 0)).1 ∧
      apply_trailing p ltp = { p with
        original_sl := some (p.original_sl.getD p.sl),
        sl := (tStep p.entry_price (p.original_sl.getD p.sl) (p.highest_ltp.getD ltp)
          (p.sl, p.tsl_level.getD 0)).1,
        tsl_level := some (tStep p.entry_price (p.original_sl.getD p.sl)
          (p.highest_ltp.getD ltp) (p.sl, p.tsl_level.getD 0)).2 }) := by
  unfold apply_trailing tStep
  dsimp only
  split_ifs <;>
    first
      | exact Or.inl ⟨rfl, rfl⟩
      | (rename_i hgd; exact Or.inr ⟨hgd, rfl⟩)

theorem apply_trailing_entry (p : Position) (ltp : ℚ) :
    (apply_trailing p ltp).entry_price = p.entry_price := by
  unfold apply_trailing; dsimp only; split_ifs <;> rfl

theorem apply_trailing_highest (p : Position) (ltp : ℚ) :
    (apply_trailing p ltp).highest_ltp = p.highest_ltp := by
  unfold apply_trailing; dsimp only; split_ifs <;> rfl

theorem apply_trailing_orig (p : Position) (ltp : ℚ) :
    (apply_trailing p ltp).original_sl = some (p.original_sl.getD p.sl) := by
  unfold apply_trailing; dsimp only; split_ifs <;> rfl

theorem set_orig_eta (p : Position) (o : ℚ) (h : p.original_sl = some o) :
    { p with original_sl := some o } = p := by
  cases p; simp_all

theorem apply_trailing_state (p : Position) (ltp : ℚ) :
    ((apply_trailing p ltp).sl, (apply_trailing p ltp).tsl_level.getD 0)
      = tStep p.entry_price (p.original_sl.getD p.sl) (p.highest_ltp.getD ltp)
          (p.sl, p.tsl_level.getD 0) := by
  rcases apply_trailing_char p ltp with ⟨hfix, heq⟩ | ⟨_, heq⟩
  · rw [heq, hfix]
  · rw [heq]
    rfl

theorem apply_trailing_fix_of_state_fix (p : Position) (ltp : ℚ)
    (h : tStep p.entry_price (p.original_sl.getD p.sl) (p.highest_ltp.getD ltp)
      ((apply_trailing p ltp).sl, (apply_trailing p ltp).tsl_level.getD 0)
        = ((apply_trailing p ltp).sl, (apply_trailing p ltp).tsl_level.getD 0)) :
    apply_trailing (apply_trailing p ltp) ltp = apply_trailing p ltp := by
  have horig := apply_trailing_orig p ltp
  have hentry := apply_trailing_entry p ltp
  have hhigh := apply_trailing_highest p ltp
  have hgd : (apply_trailing p ltp).original_sl.getD (apply_trailing p ltp).sl
      = p.original_sl.getD p.sl := by rw [horig]; rfl
  rcases apply_trailing_char (apply_trailing p ltp) ltp with ⟨_, heq⟩ | ⟨hlt, _⟩
  · rw [heq, hgd]
    exact set_orig_eta _ _ horig
  · rw [hgd, hentry, hhigh, h] at hlt
    exact absurd hlt (lt_irrefl _)

/-- **C7 counterexample.** At fixed entry price, original stop and peak
(`trailingDemoPos`: entry 100, original SL 98, `highest_ltp` 106, hence
maxRR = 3), the second evaluation of the trailing rule still changes both
`sl` and `tsl_level`, so the rule is not idempotent after the first
evaluation as the claim states. -/
theorem trailing_second_eval_changes_sl :
    (apply_trailing (apply_trailing trailingDemoPos 106) 106).sl
      ≠ (apply_trailing trailingDemoPos 106).sl ∧
    (apply_trailing (apply_trailing trailingDemoPos 106) 106).tsl_level
      ≠ (apply_trailing trailingDemoPos 106).tsl_level := by
  have h1 : apply_trailing trailingDemoPos 106
      = { trailingDemoPos with sl := 1001 / 10, tsl_level := some 1 } := by
    norm_num [apply_trailing, trailingDemoPos]
  have h2 : apply_trailing { trailingDemoPos with sl := 1001 / 10, tsl_level := some 1 } 106
      = { trailingDemoPos with sl := 102, tsl_level := some 2 } := by
    norm_num [apply_trailing, trailingDemoPos]
  rw [h1, h2]
  constructor
  · show (102 : ℚ) ≠ 1001 / 10
    norm_num
  · show some 2 ≠ some 1
    simp

/-- **C7 (amended).** The trailing-stop ratchet at a fixed entry price,
original SL and `highest_ltp` (hence fixed maxRR) advances at most one level
per evaluation and stabilizes after at most three evaluations: the fourth
evaluation never changes the position (hence in particular never changes
`tsl_level` or `sl`). -/
theorem trailing_stabilizes_after_three_evals (p : Position) (ltp : ℚ) :
    apply_trailing (apply_trailing (apply_trailing (apply_trailing p ltp) ltp) ltp) ltp
      = apply_trailing (apply_trailing (apply_trailing p ltp) ltp) ltp := by
  set e := p.entry_price with he
  set o := p.original_sl.getD p.sl with ho
  set hh := p.highest_ltp.getD ltp with hhh
  have q1orig := apply_trailing_orig p ltp
  have q1entry := apply_trailing_entry p ltp
  have q1high := apply_trailing_highest p ltp
  have q1gd : (apply_trailing p ltp).original_sl.getD (apply_trailing p ltp).sl = o := by
    rw [q1orig]; rfl
  have q2orig := apply_trailing_orig (apply_trailing p ltp) ltp
  have q2entry := apply_trailing_entry (apply_trailing p ltp) ltp
  have q2high := apply_trailing_highest (apply_trailing p ltp) ltp
  have q2gd : (apply_trailing (apply_trailing p ltp) ltp).original_sl.getD
      (apply_trailing (apply_trailing p ltp) ltp).sl = o := by
    rw [q2orig, q1gd]; rfl
  have s1 := apply_trailing_state p ltp
  have s2 := apply_trailing_state (apply_trailing p ltp) ltp
  rw [q1gd, q1entry, q1high] at s2
  have s3 := apply_trailing_state (apply_trailing (apply_trailing p ltp) ltp) ltp
  rw [q2gd, q2entry, q2high, q1entry, q1high] at s3
  apply apply_trailing_fix_of_state_fix
  rw [q2gd, q2entry, q2high, q1entry, q1high]
  rw [s3, s2, s1]
  exact tStep_fourth e o hh (p.sl, p.tsl_level.getD 0)

theorem apply_trailing_sl_mono (p : Position) (ltp : ℚ) :
    p.sl ≤ (apply_trailing p ltp).sl := by
  rcases apply_trailing_char p ltp with ⟨_, heq⟩ | ⟨hlt, heq⟩
  · rw [heq]
  · rw [heq]; exact le_of_lt hlt

theorem apply_trailing_sl_strict (p : Position) (ltp : ℚ)
    (h : (apply_trailing p ltp).sl ≠ p.sl) : p.sl < (apply_trailing p ltp).sl := by
  rcases apply_trailing_char p ltp with ⟨_, heq⟩ | ⟨hlt, heq⟩
  · rw [heq] at h; exact absurd rfl h
  · rw [heq]; exact hlt

@[simp] theorem updateWatermark_sl (p : Position) (l : ℚ) :
    (updateWatermark p l).sl = p.sl := by
  unfold updateWatermark; dsimp only; split_ifs <;> rfl

@[simp] theorem updateWatermark_qty (p : Position) (l : ℚ) :
    (updateWatermark p l).qty = p.qty := by
  unfold updateWatermark; dsimp only; split_ifs <;> rfl

@[simp] theorem updateWatermark_entry_time_ts (p : Position) (l : ℚ) :
    (updateWatermark p l).entry_time_ts = p.entry_time_ts := by
  unfold updateWatermark; dsimp only; split_ifs <;> rfl

@[simp] theorem markExit_sl (p : Position) (now : ℚ) : (markExit p now).sl = p.sl := rfl

@[simp] theorem markExit_highest (p : Position) (now : ℚ) :
    (markExit p now).highest_ltp = p.highest_ltp := rfl

theorem updateWatermark_highest_char (p : Position) (l : ℚ) :
    ((updateWatermark p l).highest_ltp = p.highest_ltp ∧ ¬ p.highest_ltp.getD 0 < l) ∨
    ((updateWatermark p l).highest_ltp = some l ∧ p.highest_ltp.getD 0 < l) := by
  unfold updateWatermark; dsimp only
  split_ifs with h
  · exact Or.inr ⟨rfl, h⟩
  · exact Or.inl ⟨rfl, h⟩

theorem updateWatermark_highest_mono (p : Position) (l : ℚ) :
    p.highest_ltp.getD 0 ≤ (updateWatermark p l).highest_ltp.getD 0 := by
  rcases updateWatermark_highest_char p l with ⟨he, _⟩ | ⟨he, hl⟩
  · rw [he]
  · rw [he]; exact le_of_lt hl

theorem updateWatermark_highest_strict (p : Position) (l : ℚ)
    (h : (updateWatermark p l).highest_ltp ≠ p.highest_ltp) :
    (updateWatermark p l).highest_ltp = some l ∧ p.highest_ltp.getD 0 < l := by
  rcases updateWatermark_highest_char p l with ⟨he, _⟩ | hr
  · exact absurd he h
  · exact hr

theorem manage_decision_sl_mono (p : Position) (ltp : ℚ) (tech : Bool) (now : ℚ) :
    p.sl ≤ (manage_decision p ltp tech now).1.sl := by
  have htr : p.sl ≤ (apply_trailing (updateWatermark p ltp) ltp).sl := by
    have h := apply_trailing_sl_mono (updateWatermark p ltp) ltp
    rwa [updateWatermark_sl] at h
  unfold manage_decision
  dsimp only
  split_ifs <;> first | exact le_rfl | exact htr | simp

theorem manage_decision_highest_mono (p : Position) (ltp : ℚ) (tech : Bool) (now : ℚ) :
    p.highest_ltp.getD 0 ≤ (manage_decision p ltp tech now).1.highest_ltp.getD 0 := by
  have huw := updateWatermark_highest_mono p ltp
  have htr : p.highest_ltp.getD 0
      ≤ (apply_trailing (updateWatermark p ltp) ltp).highest_ltp.getD 0 := by
    rwa [apply_trailing_highest]
  unfold manage_decision
  dsimp only
  split_ifs <;> first | exact le_rfl | exact htr | simpa using huw

theorem manage_run_mono (steps : List (ℚ × Bool × ℚ)) :
    ∀ p : Position, p.sl ≤ (manage_run p steps).sl ∧
      p.highest_ltp.getD 0 ≤ (manage_run p steps).highest_ltp.getD 0 := by
  induction steps with
  | nil => exact fun p => ⟨le_rfl, le_rfl⟩
  | cons s rest ih =>
    intro p
    have h1 := manage_decision_sl_mono p s.1 s.2.1 s.2.2
    have h2 := manage_decision_highest_mono p s.1 s.2.1 s.2.2
    have h3 := ih (manage_decision p s.1 s.2.1 s.2.2).1
    exact ⟨le_trans h1 h3.1, le_trans h2 h3.2⟩

theorem manage_decision_sl_strict (p : Position) (ltp : ℚ) (tech : Bool) (now : ℚ)
    (h : (manage_decision p ltp tech now).1.sl ≠ p.sl) :
    p.sl < (manage_decision p ltp tech now).1.sl := by
  revert h
  unfold manage_decision
  dsimp only
  split_ifs <;> intro h
  · exact absurd rfl h
  · exact absurd rfl h
  · exact absurd (by simp) h
  · exact absurd (by simp) h
  · exact absurd (by simp) h
  · exact absurd (by simp) h
  · rw [← updateWatermark_sl p ltp] at h ⊢
    exact apply_trailing_sl_strict _ _ h

theorem manage_decision_highest_strict (p : Position) (ltp : ℚ) (tech : Bool) (now : ℚ)
    (h : (manage_decision p ltp tech now).1.highest_ltp ≠ p.highest_ltp) :
    (manage_decision p ltp tech now).1.highest_ltp = some ltp ∧
      p.highest_ltp.getD 0 < ltp := by
  revert h
  unfold manage_decision
  dsimp only
  split_ifs <;> intro h
  · exact absurd rfl h
  · exact absurd rfl h
  all_goals
    first
      | (have h' : (updateWatermark p ltp).highest_ltp ≠ p.highest_ltp := by
           simpa using h
         simpa using updateWatermark_highest_strict p ltp h')
      | (have h' : (updateWatermark p ltp).highest_ltp ≠ p.highest_ltp := by
           simpa [apply_trailing_highest] using h
         simpa [apply_trailing_highest] using updateWatermark_highest_strict p ltp h')

/-- **C5.** Over any sequence of position-manager evaluations, `sl` and the
`highest_ltp` watermark are non-decreasing; moreover in a single evaluation
`highest_ltp` is overwritten only by a strictly larger LTP, and `sl` changes
only to a strictly larger value (the proposed trailing stop is applied only
when strictly above the current stop). -/
theorem sl_and_highest_ltp_monotone :
    (∀ (pos : Position) (steps : List (ℚ × Bool × ℚ)),
      pos.sl ≤ (manage_run pos steps).sl ∧
      pos.highest_ltp.getD 0 ≤ (manage_run pos steps).highest_ltp.getD 0) ∧
    (∀ (pos : Position) (ltp : ℚ) (tech : Bool) (now : ℚ),
      ((manage_decision pos ltp tech now).1.sl ≠ pos.sl →
        pos.sl < (manage_decision pos ltp tech now).1.sl) ∧
      ((manage_decision pos ltp tech now).1.highest_ltp ≠ pos.highest_ltp →
        (manage_decision pos ltp tech now).1.highest_ltp = some ltp ∧
          pos.highest_ltp.getD 0 < ltp)) := by
  exact ⟨fun pos steps => manage_run_mono steps pos,
    fun pos ltp tech now =>
      ⟨manage_decision_sl_strict pos ltp tech now,
       manage_decision_highest_strict pos ltp tech now⟩⟩

/-- Witness for C5: one evaluation of `slDemoPos` at LTP 106 raises the
watermark to 106 and ratchets the stop strictly above 98. -/
theorem sl_and_highest_ltp_monotone_witness :
    slDemoPos.sl < (manage_decision slDemoPos 106 false 2000).1.sl ∧
    (manage_decision slDemoPos 106 false 2000).1.highest_ltp = some 106 := by
  have hsl : (manage_decision slDemoPos 106 false 2000).1.sl = 1001 / 10 := by
    norm_num [manage_decision, updateWatermark, markExit, apply_trailing, slDemoPos,
      targetCondition, timeCondition]
  have hh : (manage_decision slDemoPos 106 false 2000).1.highest_ltp = some 106 := by
    norm_num [manage_decision, updateWatermark, markExit, apply_trailing, slDemoPos,
      targetCondition, timeCondition]
  have h := sl_and_highest_ltp_monotone.2 slDemoPos 106 false 2000
  refine ⟨h.1 ?_, (h.2 ?_).1⟩
  · rw [hsl]
    norm_num [slDemoPos]
  · rw [hh]
    norm_num [slDemoPos]

/-- **C6.** For an OPEN position whose `exit_in_progress` flag is unset, the
exit checks run in the fixed source order — hard stop, then target, then
technical breakdown, then time stagnation — and in particular when the hard
stop and the target condition hold simultaneously the recorded exit reason
is `STOP_LOSS`. -/
theorem exit_checks_priority_order (pos : Position) (ltp : ℚ) (tech : Bool) (now : ℚ)
    (hopen : pos.status = "OPEN") (hflag : pos.exit_in_progress.getD false = false) :
    (ltp ≤ pos.sl →
      (manage_decision pos ltp tech now).2 = some ("STOP_LOSS", pos.qty)) ∧
    (¬ ltp ≤ pos.sl → targetCondition pos.target ltp = true →
      (manage_decision pos ltp tech now).2 = some ("TARGET_HIT", pos.qty)) ∧
    (¬ ltp ≤ pos.sl → targetCondition pos.target ltp = false → tech = true →
      (manage_decision pos ltp tech now).2 = some ("TECH_EXIT", pos.qty)) ∧
    (¬ ltp ≤ pos.sl → targetCondition pos.target ltp = false → tech = false →
      timeCondition pos.entry_time_ts pos.entry_price ltp now = true →
      (manage_decision pos ltp tech now).2 = some ("TIME_EXIT", pos.qty)) ∧
    (ltp ≤ pos.sl → targetCondition pos.target ltp = true →
      (manage_decision pos ltp tech now).2 = some ("STOP_LOSS", pos.qty)) := by
  refine ⟨?_, ?_, ?_, ?_, ?_⟩
  · intro h1
    simp [manage_decision, hopen, hflag, h1]
  · intro h1 h2
    simp [manage_decision, hopen, hflag, h1, h2]
  · intro h1 h2 h3
    simp [manage_decision, hopen, hflag, h1, h2, h3]
  · intro h1 h2 h3 h4
    simp [manage_decision, hopen, hflag, h1, h2, h3, h4]
  · intro h1 h2
    simp [manage_decision, hopen, hflag, h1]

/-- Witness for C6: `exitDemoPos` at LTP 100.05 satisfies both the hard stop
(SL 101) and the target condition (target 100); the exit reason is
`STOP_LOSS`. -/
theorem exit_checks_priority_order_witness :
    (manage_decision exitDemoPos (2001 / 20) false 0).2 = some ("STOP_LOSS", 10) := by
  have h := (exit_checks_priority_order exitDemoPos (2001 / 20) false 0 rfl rfl).2.2.2.2
  have h1 : (2001 / 20 : ℚ) ≤ exitDemoPos.sl := by norm_num [exitDemoPos]
  have h2 : targetCondition exitDemoPos.target (2001 / 20) = true := by
    norm_num [targetCondition, exitDemoPos]
  exact h h1 h2

theorem place_buy_duplicate_live (pending : PendingOrders) (cid symbol : String)
    (qty : ℤ) (broker : Except Unit String) (now : ℚ)
    (hc : cid ≠ "") (hdup : (lookupKey cid pending).isSome) :
    place_buy_order false pending cid symbol qty broker now
      = (none, pending, [GatewayAction.registryCheck cid false]) := by
  have hchk := checkAndRegister_of_present pending cid
    { symbol := some symbol, action := none } now hdup
  simp [place_buy_order, hc, hchk]

theorem sniper_live_blocked (pending : PendingOrders) (cid symbol : String)
    (qty : ℤ) (ltp bsl tpct : ℚ) (broker : Except Unit String)
    (now qnow : ℚ) (nowStr : String) (hc : cid ≠ "") :
    (sniper_entry_step false pending cid symbol qty ltp bsl tpct broker now qnow nowStr).1
      = none ∧
    placementCount
      (sniper_entry_step false pending cid symbol qty ltp bsl tpct broker now qnow nowStr).2.2
      = 0 := by
  unfold sniper_entry_step
  by_cases hq : qty > 0
  · by_cases hdup : (lookupKey cid pending).isSome
    · have hchk := checkAndRegister_of_present pending cid
        { symbol := some symbol, action := none } now hdup
      simp [hq, hchk, placementCount, isBrokerPlace, List.filter]
    · have hnone : lookupKey cid pending = none := by
        cases h : lookupKey cid pending with
        | none => rfl
        | some v => exact absurd (by simp [h]) hdup
      have hchk := checkAndRegister_of_fresh pending cid
        { symbol := some symbol, action := none } now hnone
      have hpres : (lookupKey cid (pending ++
          [(cid, freshRecord { symbol := some symbol, action := none } now)])).isSome := by
        rw [lookupKey_after_fresh_insert pending cid _ hnone]; rfl
      have hpb := place_buy_duplicate_live (pending ++
        [(cid, freshRecord { symbol := some symbol, action := none } now)])
        cid symbol qty broker now hc hpres
      simp [hq, hchk, hpb, orderRefTruthy, placementCount, isBrokerPlace, List.filter]
  · simp [hq, placementCount]

/-- **C4.** In live mode `place_buy_order` re-runs the atomic duplicate
check, so a correlation id already present in the registry makes it return
`None` with no broker submission and the registry unchanged; since the
sniper loop registers the id itself right before calling, the live sniper
entry path never submits an order and never writes a position, while in
dry-run mode `place_buy_order` returns its synthetic success before the
duplicate check is ever reached. -/
theorem duplicate_cid_blocks_live_buy_and_sniper :
    (∀ (pending : PendingOrders) (cid symbol : String) (qty : ℤ)
        (broker : Except Unit String) (now : ℚ),
      cid ≠ "" → (lookupKey cid pending).isSome →
      place_buy_order false pending cid symbol qty broker now
        = (none, pending, [GatewayAction.registryCheck cid false])) ∧
    (∀ (pending : PendingOrders) (cid symbol : String) (qty : ℤ) (ltp bsl tpct : ℚ)
        (broker : Except Unit String) (now qnow : ℚ) (nowStr : String),
      cid ≠ "" →
      (sniper_entry_step false pending cid symbol qty ltp bsl tpct broker now qnow nowStr).1
        = none ∧
      placementCount (sniper_entry_step false pending cid symbol qty ltp bsl tpct
        broker now qnow nowStr).2.2 = 0) ∧
    (∀ (pending : PendingOrders) (cid symbol : String) (qty : ℤ)
        (broker : Except Unit String) (now : ℚ),
      place_buy_order true pending cid symbol qty broker now
        = (some OrderRef.dryRunRef, pending, [])) := by
  refine ⟨place_buy_duplicate_live, ?_, ?_⟩
  · intro pending cid symbol qty ltp bsl tpct broker now qnow nowStr hc
    exact sniper_live_blocked pending cid symbol qty ltp bsl tpct broker now qnow nowStr hc
  · intro pending cid symbol qty broker now
    rfl

/-- Witness for C4 at concrete inputs: a registered id blocks the live buy,
the live sniper path writes no position and submits nothing, and dry-run
returns synthetic success over a registry that already holds the id. -/
theorem duplicate_cid_blocks_live_buy_and_sniper_witness :
    (place_buy_order false
        [("CID2", freshRecord { symbol := some "SBIN", action := none } 5)]
        "CID2" "SBIN" 10 (Except.ok "Z1") 6).1 = none ∧
    (sniper_entry_step false [] "CID2" "SBIN" 10 500 495 (2 / 100)
        (Except.ok "Z1") 5 5 "10:00").1 = none := by
  constructor
  · have h := duplicate_cid_blocks_live_buy_and_sniper.1
      [("CID2", freshRecord { symbol := some "SBIN", action := none } 5)]
      "CID2" "SBIN" 10 (Except.ok "Z1") 6 (by decide) (by decide)
    rw [h]
  · exact (duplicate_cid_blocks_live_buy_and_sniper.2.1 [] "CID2" "SBIN" 10 500 495
      (2 / 100) (Except.ok "Z1") 5 5 "10:00" (by decide)).1

/-- **C3.** A position with status OPEN is written by an entry path only for
an order whose verification succeeded: the `run_bot_loop` entry writes a
position exactly when the final verification outcome (including the TIMEOUT
position-scan recovery) is success; the live sniper path writes no position
at all (its order is blocked by the duplicate check); and a dry-run sniper
position carries the `DRY_RUN` order id whose verification always
succeeds. -/
theorem position_created_only_after_verification :
    (∀ (dry_run : Bool) (pending : PendingOrders) (cid symbol : String) (qty : ℤ)
        (price slp tp : ℚ) (broker : Except Unit String) (verify : Bool × String × ℚ)
        (live : Option (List BrokerPos)) (now qnow : ℚ) (nowStr : String),
      (∀ p : Position,
        (run_bot_entry_step dry_run pending cid symbol qty price slp tp broker verify
          live now qnow nowStr).1 = some p →
        (run_bot_entry_step dry_run pending cid symbol qty price slp tp broker verify
          live now qnow nowStr).2.1 = true ∧ p.status = "OPEN") ∧
      ((run_bot_entry_step dry_run pending cid symbol qty price slp tp broker verify
          live now qnow nowStr).2.1 = false →
        (run_bot_entry_step dry_run pending cid symbol qty price slp tp broker verify
          live now qnow nowStr).1 = none)) ∧
    (∀ (pending : PendingOrders) (cid symbol : String) (qty : ℤ) (ltp bsl tpct : ℚ)
        (broker : Except Unit String) (now qnow : ℚ) (nowStr : String),
      cid ≠ "" →
      (sniper_entry_step false pending cid symbol qty ltp bsl tpct broker now qnow nowStr).1
        = none) ∧
    (∀ (pending : PendingOrders) (cid symbol : String) (qty : ℤ) (ltp bsl tpct : ℚ)
        (broker : Except Unit String) (now qnow : ℚ) (nowStr : String) (p : Position),
      (sniper_entry_step true pending cid symbol qty ltp bsl tpct broker now qnow nowStr).1
        = some p →
      p.order_id = some (OrderRef.orderRef "DRY_RUN") ∧ p.status = "OPEN") ∧
    (∀ (oracle : ℕ → Bool × String × ℚ) (attempt : ℕ),
      (verifyAttempt oracle (some (OrderRef.orderRef "DRY_RUN")) attempt).1 = true) := by
  refine ⟨?_, ?_, ?_, ?_⟩
  · intro dry_run pending cid symbol qty price slp tp broker verify live now qnow nowStr
    unfold run_bot_entry_step
    dsimp only
    by_cases h1 : orderRefTruthy
        (place_buy_order dry_run pending cid symbol qty broker now).1 = false
    · simp [h1]
    · by_cases h2 : (timeout_recovery
          (verifyAttempt (fun _ => verify)
            (place_buy_order dry_run pending cid symbol qty broker now).1 0)
          live symbol qty price).1 = true
      · simp only [h1, Bool.false_eq_true, if_false, h2, if_true]
        constructor
        · intro p hp
          obtain rfl := Option.some.inj hp
          exact ⟨rfl, rfl⟩
        · intro hfalse
          exact absurd hfalse (by simp)
      · simp [h1, h2]
  · intro pending cid symbol qty ltp bsl tpct broker now qnow nowStr hc
    exact (sniper_live_blocked pending cid symbol qty ltp bsl tpct broker now qnow nowStr hc).1
  · intro pending cid symbol qty ltp bsl tpct broker now qnow nowStr p hp
    revert hp
    unfold sniper_entry_step
    by_cases hq : qty > 0
    · by_cases hdup : (check_and_register_pending_order pending cid
          { symbol := some symbol, action := none } now).1 = false
      · simp [hq, hdup]
      · have hpb : place_buy_order true (check_and_register_pending_order pending cid
            { symbol := some symbol, action := none } now).2 cid symbol qty broker now
            = (some OrderRef.dryRunRef, (check_and_register_pending_order pending cid
              { symbol := some symbol, action := none } now).2, []) := rfl
        simp only [hq, if_true, hdup, Bool.false_eq_true, if_false, hpb, orderRefTruthy,
          Bool.true_or, Bool.or_true, ite_true, if_true]
        intro hp
        obtain rfl := Option.some.inj hp
        exact ⟨rfl, rfl⟩
    · simp [hq]
  · intro oracle attempt
    have h1 : ("DRY_RUN" : String) ≠ "" := by decide
    have h2 : pyUpper "DRY_RUN" = "DRY_RUN" := by decide
    simp [verifyAttempt, h1, h2]

/-- Witness for C3: with a rejected verification and no recovery the main
entry path writes no position, and a dry-run sniper execution writes a
position carrying the always-verifiable `DRY_RUN` order id. -/
theorem position_created_only_after_verification_witness :
    (run_bot_entry_step false [] "CID3" "SBIN" 10 500 495 510 (Except.ok "OD1")
        (false, "REJECTED: margin", 0) none 5 5 "10:02").1 = none ∧
    ∃ p : Position,
      (sniper_entry_step true [] "CID4" "SBIN" 10 500 495 (2 / 100) (Except.ok "OD2")
        5 5 "10:03").1 = some p ∧ p.order_id = some (OrderRef.orderRef "DRY_RUN") := by
  constructor
  · refine (position_created_only_after_verification.1 false [] "CID3" "SBIN" 10 500 495 510
      (Except.ok "OD1") (false, "REJECTED: margin", 0) none 5 5 "10:02").2 ?_
    decide
  · have hs : (sniper_entry_step true [] "CID4" "SBIN" 10 500 495 (2 / 100)
        (Except.ok "OD2") 5 5 "10:03").1.isSome = true := by
      norm_num [sniper_entry_step, check_and_register_pending_order, lookupKey,
        place_buy_order, orderRefTruthy]
    obtain ⟨p, hp⟩ := Option.isSome_iff_exists.mp hs
    exact ⟨p, hp, (position_created_only_after_verification.2.2.1 [] "CID4" "SBIN" 10 500 495
      (2 / 100) (Except.ok "OD2") 5 5 "10:03" p hp).1⟩

theorem lookupKey_cons {α : Type} (a : String × α) (rest : List (String × α)) (k : String) :
    lookupKey k (a :: rest) = if a.1 = k then some a.2 else lookupKey k rest := rfl

theorem lookup_replaceAll {α : Type} (k : String) (v : α) :
    ∀ d : List (String × α), (lookupKey k d).isSome →
      lookupKey k (d.map (fun kv => if kv.1 = k then (k, v) else kv)) = some v := by
  intro d
  induction d with
  | nil => intro h; simp [lookupKey] at h
  | cons a rest ih =>
    intro h
    by_cases ha : a.1 = k
    · rw [List.map_cons, if_pos ha, lookupKey_cons]
      exact if_pos rfl
    · have h' : (lookupKey k rest).isSome := by
        rw [lookupKey_cons, if_neg ha] at h
        exact h
      rw [List.map_cons, if_neg ha, lookupKey_cons, if_neg ha]
      exact ih h'

theorem lookup_replaceAll_ne {α : Type} (k k' : String) (v : α) (hne : k' ≠ k) :
    ∀ d : List (String × α),
      lookupKey k' (d.map (fun kv => if kv.1 = k then (k, v) else kv)) = lookupKey k' d := by
  intro d
  induction d with
  | nil => rfl
  | cons a rest ih =>
    by_cases ha : a.1 = k
    · have hk : ¬ ((k, v).1 = k') := fun hh => hne hh.symm
      have ha' : ¬ (a.1 = k') := by rw [ha]; exact fun hh => hne hh.symm
      rw [List.map_cons, if_pos ha, lookupKey_cons, if_neg hk, lookupKey_cons, if_neg ha']
      exact ih
    · rw [List.map_cons, if_neg ha, lookupKey_cons, lookupKey_cons]
      by_cases ha' : a.1 = k'
      · rw [if_pos ha', if_pos ha']
      · rw [if_neg ha', if_neg ha']
        exact ih

theorem lookupKey_dictInsert_self {α : Type} (k : String) (v : α) (d : List (String × α)) :
    lookupKey k (dictInsert k v d) = some v := by
  unfold dictInsert
  by_cases h : (lookupKey k d).isSome
  · rw [if_pos h]
    exact lookup_replaceAll k v d h
  · rw [if_neg h, lookupKey_append, Option.not_isSome_iff_eq_none.mp h]
    simp [lookupKey]

theorem lookupKey_dictInsert_ne {α : Type} (k k' : String) (v : α)
    (d : List (String × α)) (hne : k' ≠ k) :
    lookupKey k' (dictInsert k v d) = lookupKey k' d := by
  unfold dictInsert
  by_cases h : (lookupKey k d).isSome
  · rw [if_pos h]
    exact lookup_replaceAll_ne k k' v hne d
  · rw [if_neg h, lookupKey_append]
    cases hl : lookupKey k' d with
    | none =>
      have hk : ¬ (k = k') := fun hh => hne hh.symm
      simp [lookupKey, hk]
    | some p => rfl

theorem lookupKey_mapEntries {α : Type} (g : String → α → α)
    (l : List (String × α)) (k : String) :
    lookupKey k (l.map (fun sp => (sp.1, g sp.1 sp.2))) = (lookupKey k l).map (g k) := by
  induction l with
  | nil => rfl
  | cons a rest ih =>
    by_cases h : a.1 = k
    · simp [lookupKey, List.map_cons, h]
    · simp [lookupKey, List.map_cons, h, ih]

theorem orphanCondition_false_open (ps : Positions) (s : String)
    (h : orphanCondition ps s = false) :
    ∃ p, lookupKey s ps = some p ∧ p.status = "OPEN" := by
  unfold orphanCondition at h
  cases hl : lookupKey s ps with
  | none => rw [hl] at h; exact absurd h (by simp)
  | some p =>
    rw [hl] at h
    refine ⟨p, rfl, ?_⟩
    simpa using h

theorem fold_insert_open (orph : String → BrokerOpenData → Position)
    (horph : ∀ s d, (orph s d).status = "OPEN") :
    ∀ (bl : List (String × BrokerOpenData)) (ps : Positions) (sym : String),
      ((lookupKey sym bl).isSome ∨ ∃ p, lookupKey sym ps = some p ∧ p.status = "OPEN") →
      ∃ p, lookupKey sym (bl.foldl (fun ps sd =>
          if orphanCondition ps sd.1 then dictInsert sd.1 (orph sd.1 sd.2) ps else ps) ps)
        = some p ∧ p.status = "OPEN" := by
  intro bl
  induction bl with
  | nil =>
    intro ps sym h
    rcases h with h | h
    · simp [lookupKey] at h
    · simpa [List.foldl] using h
  | cons kd rest ih =>
    intro ps sym h
    rw [List.foldl_cons]
    apply ih
    rcases h with h | ⟨p, hp, hst⟩
    · by_cases hk : kd.1 = sym
      · right
        subst hk
        by_cases hc : orphanCondition ps kd.1 = true
        · exact ⟨orph kd.1 kd.2,
            by rw [if_pos hc]; exact lookupKey_dictInsert_self kd.1 _ ps, horph _ _⟩
        · obtain ⟨p, hp, hst⟩ :=
            orphanCondition_false_open ps kd.1 (Bool.eq_false_iff.mpr hc)
          exact ⟨p, by rw [if_neg hc]; exact hp, hst⟩
      · left
        simpa [lookupKey, hk] using h
    · right
      by_cases hc : orphanCondition ps kd.1 = true
      · by_cases hk : kd.1 = sym
        · subst hk
          exact ⟨orph kd.1 kd.2,
            by rw [if_pos hc]; exact lookupKey_dictInsert_self kd.1 _ ps, horph _ _⟩
        · exact ⟨p,
            by rw [if_pos hc,
              lookupKey_dictInsert_ne kd.1 sym _ ps (fun hh => hk hh.symm)]; exact hp, hst⟩
      · exact ⟨p, by rw [if_neg hc]; exact hp, hst⟩

theorem fold_insert_untouched (orph : String → BrokerOpenData → Position) :
    ∀ (bl : List (String × BrokerOpenData)) (ps : Positions) (sym : String),
      lookupKey sym bl = none →
      lookupKey sym (bl.foldl (fun ps sd =>
        if orphanCondition ps sd.1 then dictInsert sd.1 (orph sd.1 sd.2) ps else ps) ps)
        = lookupKey sym ps := by
  intro bl
  induction bl with
  | nil => intro ps sym _; rfl
  | cons kd rest ih =>
    intro ps sym h
    have hk : ¬ (kd.1 = sym) := by
      intro he
      rw [lookupKey, if_pos he] at h
      exact Option.some_ne_none _ h
    have hrest : lookupKey sym rest = none := by
      rwa [lookupKey, if_neg hk] at h
    rw [List.foldl_cons, ih _ sym hrest]
    by_cases hc : orphanCondition ps kd.1 = true
    · rw [if_pos hc, lookupKey_dictInsert_ne kd.1 sym _ ps (fun hh => hk hh.symm)]
    · rw [if_neg hc]

/-- **C8.** After one reconciliation pass with a successful broker fetch —
either the quick pass or the startup pass — every symbol in the broker's
nonzero-quantity map is locally OPEN (present and untouched by the ghost
sweep, or freshly imported as an orphan), and every symbol that was locally
OPEN but is absent from the broker's nonzero positions ends with status
CLOSED. -/
theorem reconciliation_converges :
    (∀ (lp : List BrokerPos) (L : Positions) (now : ℚ) (sym : String),
      (lookupKey sym (build_broker_open lp)).isSome →
      ∃ p, lookupKey sym (reconcile_positions_quick (some lp) L now) = some p ∧
        p.status = "OPEN") ∧
    (∀ (lp : List BrokerPos) (L : Positions) (now : ℚ) (sym : String) (p0 : Position),
      lookupKey sym L = some p0 → p0.status = "OPEN" →
      lookupKey sym (build_broker_open lp) = none →
      ∃ p, lookupKey sym (reconcile_positions_quick (some lp) L now) = some p ∧
        p.status = "CLOSED") ∧
    (∀ (lp : List BrokerPos) (L : Positions) (slp tpp : ℚ) (sym : String),
      (lookupKey sym (build_broker_open lp)).isSome →
      ∃ p, lookupKey sym (reconcile_state (some lp) L slp tpp).2 = some p ∧
        p.status = "OPEN") ∧
    (∀ (lp : List BrokerPos) (L : Positions) (slp tpp : ℚ) (sym : String) (p0 : Position),
      lookupKey sym L = some p0 → p0.status = "OPEN" →
      lookupKey sym (build_broker_open lp) = none →
      ∃ p, lookupKey sym (reconcile_state (some lp) L slp tpp).2 = some p ∧
        p.status = "CLOSED") := by
  refine ⟨?_, ?_, ?_, ?_⟩
  · intro lp L now sym hb
    unfold reconcile_positions_quick
    dsimp only
    exact fold_insert_open (fun s d => orphan_position_quick s d now) (fun s d => rfl)
      (build_broker_open lp)
      (L.map (fun sp => (sp.1, ghost_update_quick (build_broker_open lp) sp.1 sp.2)))
      sym (Or.inl hb)
  · intro lp L now sym p0 hp0 hst hbn
    unfold reconcile_positions_quick
    dsimp only
    rw [fold_insert_untouched (fun s d => orphan_position_quick s d now)
        (build_broker_open lp) _ sym hbn,
      lookupKey_mapEntries (ghost_update_quick (build_broker_open lp)) L sym, hp0]
    refine ⟨ghost_update_quick (build_broker_open lp) sym p0, rfl, ?_⟩
    simp [ghost_update_quick, hst, hbn, close_ghost_quick]
  · intro lp L slp tpp sym hb
    unfold reconcile_state
    dsimp only
    obtain ⟨p, hp, hst⟩ := fold_insert_open (fun s d => orphan_position_state d slp tpp)
      (fun s d => rfl) (build_broker_open lp) L sym (Or.inl hb)
    rw [lookupKey_mapEntries (ghost_update_state (build_broker_open lp)) _ sym, hp]
    refine ⟨ghost_update_state (build_broker_open lp) sym p, rfl, ?_⟩
    have hne : ¬ (lookupKey sym (build_broker_open lp) = none) := by
      intro he
      rw [he] at hb
      exact absurd hb (by simp)
    simp [ghost_update_state, hne, hst]
  · intro lp L slp tpp sym p0 hp0 hst hbn
    unfold reconcile_state
    dsimp only
    rw [lookupKey_mapEntries (ghost_update_state (build_broker_open lp)) _ sym,
      fold_insert_untouched (fun s d => orphan_position_state d slp tpp)
        (build_broker_open lp) L sym hbn, hp0]
    refine ⟨ghost_update_state (build_broker_open lp) sym p0, rfl, ?_⟩
    simp [ghost_update_state, hst, hbn, close_ghost_state]

/-- Witness for C8: the broker holds SBIN (qty 50 at 500) while the local
state holds an OPEN RELIANCE; after the quick pass SBIN is locally OPEN and
RELIANCE is CLOSED. -/
theorem reconciliation_converges_witness :
    (∃ p, lookupKey "SBIN" (reconcile_positions_quick (some demoBroker) demoPositions 9)
      = some p ∧ p.status = "OPEN") ∧
    (∃ p, lookupKey "RELIANCE" (reconcile_positions_quick (some demoBroker) demoPositions 9)
      = some p ∧ p.status = "CLOSED") := by
  constructor
  · exact reconciliation_converges.1 demoBroker demoPositions 9 "SBIN" (by decide)
  · exact reconciliation_converges.2.1 demoBroker demoPositions 9 "RELIANCE" demoOpenPos
      (by decide) rfl (by decide)

/-- **C9 counterexample.** In dry-run mode `place_buy_order` returns its
synthetic success before the idempotency registry is consulted: with the
correlation id already registered it still returns `True`, performs no
registry action, and leaves the registry unchanged — the duplicate check is
never exercised, contradicting the claim that every dry-run placement
traverses the registry. -/
theorem dry_run_buy_skips_registry :
    place_buy_order true
        [("CID5", freshRecord { symbol := some "SBIN", action := none } 3)]
        "CID5" "SBIN" 10 (Except.ok "OD5") 4
      = (some OrderRef.dryRunRef,
         [("CID5", freshRecord { symbol := some "SBIN", action := none } 3)], []) := rfl

/-- **C9 (amended).** In dry-run mode only sell placements perform the
atomic check-and-register before returning their synthetic success (a
duplicate id is refused, and a fresh id is registered and then cleared);
buy placements short-circuit to synthetic success before any registry
interaction. -/
theorem dry_run_registry_traversal_amended :
    (∀ (pending : PendingOrders) (cid symbol reason : String) (qty : ℤ)
        (broker : Except Unit String) (now : ℚ),
      (lookupKey cid pending).isSome →
      place_sell_order true pending cid symbol reason qty broker now
        = (none, pending, [GatewayAction.registryCheck cid false])) ∧
    (∀ (pending : PendingOrders) (cid symbol reason : String) (qty : ℤ)
        (broker : Except Unit String) (now : ℚ),
      lookupKey cid pending = none →
      (place_sell_order true pending cid symbol reason qty broker now).1
        = some OrderRef.dryRunRef ∧
      (place_sell_order true pending cid symbol reason qty broker now).2.2
        = [GatewayAction.registryCheck cid true, GatewayAction.registryClear cid]) ∧
    (∀ (pending : PendingOrders) (cid symbol : String) (qty : ℤ)
        (broker : Except Unit String) (now : ℚ),
      place_buy_order true pending cid symbol qty broker now
        = (some OrderRef.dryRunRef, pending, [])) := by
  refine ⟨?_, ?_, ?_⟩
  · intro pending cid symbol reason qty broker now hdup
    have hchk := checkAndRegister_of_present pending cid
      { symbol := some symbol, action := some reason } now hdup
    simp [place_sell_order, hchk]
  · intro pending cid symbol reason qty broker now hfresh
    have hchk := checkAndRegister_of_fresh pending cid
      { symbol := some symbol, action := some reason } now hfresh
    constructor <;> simp [place_sell_order, hchk]
  · intro pending cid symbol qty broker now
    rfl

/-- Witness for C9 (amended): a registered id blocks the dry-run sell, a
fresh id yields the synthetic dry-run success after the registry check. -/
theorem dry_run_registry_traversal_amended_witness :
    (place_sell_order true
        [("CID6", freshRecord { symbol := some "SBIN", action := some "STOP_LOSS" } 3)]
        "CID6" "SBIN" "STOP_LOSS" 5 (Except.ok "X") 4).1 = none ∧
    (place_sell_order true [] "CID7" "SBIN" "STOP_LOSS" 5 (Except.ok "X") 4).1
      = some OrderRef.dryRunRef := by
  constructor
  · have h := dry_run_registry_traversal_amended.1
      [("CID6", freshRecord { symbol := some "SBIN", action := some "STOP_LOSS" } 3)]
      "CID6" "SBIN" "STOP_LOSS" 5 (Except.ok "X") 4 (by decide)
    rw [h]
  · exact (dry_run_registry_traversal_amended.2.1 [] "CID7" "SBIN" "STOP_LOSS" 5
      (Except.ok "X") 4 rfl).1

/-- **C10 counterexample.** At entry 100, stop 90, balance 1000, risk 100
percent, `max_position_pct` 100 and leverage 1, the source clamps the
position cap to 50 percent and returns 5, while the claim's uncapped formula
gives 10. -/
theorem position_size_cap_counterexample :
    calculate_position_size 100 90 1000 100 100 (1 / 2) (some 1) "SBIN" = 5 ∧
    sizePositionClaim 100 90 1000 100 100 (1 / 2) 1 = 10 ∧
    calculate_position_size 100 90 1000 100 100 (1 / 2) (some 1) "SBIN"
      ≠ sizePositionClaim 100 90 1000 100 100 (1 / 2) 1 := by
  refine ⟨?_, ?_, ?_⟩ <;>
    norm_num [calculate_position_size, sizePositionClaim, truncInt, get_leverage,
      floor_to_lot_size]

/-- **C10 (amended).** For every input with a positive entry price,
`calculate_position_size` returns 0 when `slPrice ≥ entryPrice` or the
stop-distance percentage is below `minSlPct`, and otherwise
`min(trunc(riskAmount/stopDistance), trunc(balance·leverage·min(maxPositionPct,50)/100/entryPrice))`
with identity lot flooring, returning 0 when that quantity is not
positive — the claim's formula holds once `maxPositionPct` is clamped to
50. -/
theorem position_size_formula_with_cap (entry sl balance riskPct maxPos minSl : ℚ)
    (levraw : Option ℚ) (symbol : String) (hentry : 0 < entry) :
    calculate_position_size entry sl balance riskPct maxPos minSl levraw symbol
      = sizePositionAmended entry sl balance riskPct maxPos minSl (get_leverage levraw) := by
  unfold calculate_position_size sizePositionAmended floor_to_lot_size
  dsimp only
  by_cases hc : entry - sl ≤ 0
  · rw [if_pos hc, if_pos (by linarith : sl ≥ entry)]
  · rw [if_neg hc, if_neg (by intro hge; exact hc (by linarith) : ¬ sl ≥ entry)]

/-- Witness for C10 (amended) at the counterexample's inputs. -/
theorem position_size_formula_with_cap_witness :
    (0 : ℚ) < 100 ∧
    calculate_position_size 100 90 1000 100 100 (1 / 2) (some 1) "SBIN"
      = sizePositionAmended 100 90 1000 100 100 (1 / 2) (get_leverage (some 1)) :=
  ⟨by norm_num,
   position_size_formula_with_cap 100 90 1000 100 100 (1 / 2) (some 1) "SBIN" (by norm_num)⟩

/-- Witness for C1 at a concrete registry and call sequence. -/
theorem checkAndRegister_atomic_first_call_wins_witness :
    lookupKey "SBIN_20251010_101500_123_BUY" ([] : PendingOrders) = none ∧
    (runCheckAndRegisterSeq ([] : PendingOrders) "SBIN_20251010_101500_123_BUY"
        [(⟨some "SBIN", some "BUY"⟩, 10), (⟨some "SBIN", some "BUY"⟩, 11),
         (⟨some "SBIN", some "BUY"⟩, 12)]).1 = [true, false, false] := by
  refine ⟨rfl, ?_⟩
  have h := checkAndRegister_atomic_first_call_wins ([] : PendingOrders)
    "SBIN_20251010_101500_123_BUY" ⟨some "SBIN", some "BUY"⟩ 10
    [(⟨some "SBIN", some "BUY"⟩, 11), (⟨some "SBIN", some "BUY"⟩, 12)] rfl
  rw [h.2.2.2]
  rfl

end IntradayBot
